import Mathlib

/-!
Verification of the client-side behaviors of the feature-store introduction
notebook: the feature-group readiness poller (`check_feature_group_status`),
the EventTime column append, and the batch ingest contract.

The poller is embedded from the notebook source:

  def check_feature_group_status(feature_group):
      status = feature_group.describe().get("FeatureGroupStatus")
      while status == "Creating":
          print("Waiting for Feature Group to be Created")
          time.sleep(5)
          status = feature_group.describe().get("FeatureGroupStatus")
      print(f"FeatureGroup ... successfully created.")

The status-fetch capability is modelled as a sequence `fetch : Nat → String`
giving the result of the n-th describe call (0-indexed).  Since the Python
loop is unbounded, the embedding takes a fuel parameter bounding the number
of loop iterations; `none` means the fuel ran out with the loop still going.
-/

set_option autoImplicit false

namespace FeatureStoreIntro

/-- Observable trace of one terminating run of `check_feature_group_status`:
how many describe calls were made, the duration of each sleep in order,
how many progress messages were printed, the status that ended the loop,
and whether the final "successfully created" message was printed. -/
structure PollTrace where
  fetches : Nat
  sleepIntervals : List Nat
  progressMessages : Nat
  finalStatus : String
  reportedSuccess : Bool
  deriving Repr, DecidableEq

/-- The while loop of `check_feature_group_status`.  `status` is the most
recently fetched status, `fetches` the number of describe calls made so far
(also the index of the next fetch), `sleeps` the sleeps performed so far and
`msgs` the progress messages printed so far.  Each iteration mirrors the
Python body: print a progress message, sleep 5, fetch again.  On loop exit
the code unconditionally prints the success message, whatever the status. -/
def checkLoop (fetch : Nat → String) : String → Nat → List Nat → Nat → Nat → Option PollTrace
  | status, fetches, sleeps, msgs, fuel =>
    if status = "Creating" then
      match fuel with
      | 0 => none
      | Nat.succ f =>
        checkLoop fetch (fetch fetches) (fetches + 1) (sleeps ++ [5]) (msgs + 1) f
    else
      some { fetches := fetches, sleepIntervals := sleeps, progressMessages := msgs,
             finalStatus := status, reportedSuccess := true }

/-- `check_feature_group_status` from the notebook: one initial fetch, then
the while loop. -/
def check_feature_group_status (fetch : Nat → String) (fuel : Nat) : Option PollTrace :=
  checkLoop fetch (fetch 0) 1 [] 0 fuel

/-- The status-fetch sequence [Creating, Failed, Failed, ...]. -/
def seqCreatingFailed : Nat → String :=
  fun i => if i = 0 then "Creating" else "Failed"

/-- The status-fetch sequence [Creating, Creating, Created, Created, ...]. -/
def seqCreatingCreatingCreated : Nat → String :=
  fun i => if i < 2 then "Creating" else "Created"

/-- The trace of a run whose very first fetch is already "Created". -/
def traceCreatedImmediately : PollTrace :=
  { fetches := 1, sleepIntervals := [], progressMessages := 0,
    finalStatus := "Created", reportedSuccess := true }

/-- One iteration of the while loop while the status is still "Creating". -/
theorem checkLoop_step (fetch : Nat → String) (status : String) (fetches msgs : Nat)
    (sleeps : List Nat) (f : Nat) (h : status = "Creating") :
    checkLoop fetch status fetches sleeps msgs (f + 1) =
      checkLoop fetch (fetch fetches) (fetches + 1) (sleeps ++ [5]) (msgs + 1) f := by
  conv_lhs => rw [checkLoop]
  simp [h]

/-- Loop exit: any status other than "Creating" ends the loop at once and
the success message is printed. -/
theorem checkLoop_exit (fetch : Nat → String) (status : String) (fetches msgs : Nat)
    (sleeps : List Nat) (fuel : Nat) (h : status ≠ "Creating") :
    checkLoop fetch status fetches sleeps msgs fuel =
      some { fetches := fetches, sleepIntervals := sleeps, progressMessages := msgs,
             finalStatus := status, reportedSuccess := true } := by
  cases fuel with
  | zero => rw [checkLoop]; simp [h]
  | succ f => rw [checkLoop]; simp [h]

/-- Any terminating run of the loop: the counters all advance in lockstep
(one fetch, one 5-unit sleep and one progress message per iteration), the
final status is the first non-"Creating" status fetched, and the success
message is printed unconditionally. -/
theorem checkLoop_some_spec (fetch : Nat → String) :
    ∀ (fuel : Nat) (status : String) (fetches msgs : Nat) (sleeps : List Nat) (t : PollTrace),
      checkLoop fetch status fetches sleeps msgs fuel = some t →
      (∃ k, t.fetches = fetches + k ∧ t.sleepIntervals = sleeps ++ List.replicate k 5 ∧
        t.progressMessages = msgs + k) ∧
      t.reportedSuccess = true ∧ t.finalStatus ≠ "Creating" := by
  intro fuel
  induction fuel with
  | zero =>
    intro status fetches msgs sleeps t h
    rw [checkLoop] at h
    by_cases hs : status = "Creating"
    · simp [hs] at h
    · simp [hs] at h
      refine ⟨⟨0, ?_⟩, ?_, ?_⟩ <;> simp [← h, hs]
  | succ f ih =>
    intro status fetches msgs sleeps t h
    rw [checkLoop] at h
    by_cases hs : status = "Creating"
    · simp only [hs, if_true] at h
      obtain ⟨⟨k, hk1, hk2, hk3⟩, hsucc, hfinal⟩ :=
        ih (fetch fetches) (fetches + 1) (msgs + 1) (sleeps ++ [5]) t h
      refine ⟨⟨k + 1, by omega, ?_, by omega⟩, hsucc, hfinal⟩
      rw [hk2]
      simp [List.replicate_succ]
    · simp [hs] at h
      refine ⟨⟨0, ?_⟩, ?_, ?_⟩ <;> simp [← h, hs]

/-- If a terminating run exists, some fetched status differed from
"Creating". -/
theorem checkLoop_some_fetch (fetch : Nat → String) :
    ∀ (fuel : Nat) (status : String) (fetches msgs : Nat) (sleeps : List Nat) (t : PollTrace),
      checkLoop fetch status fetches sleeps msgs fuel = some t →
      status ≠ "Creating" ∨ ∃ i, fetch i ≠ "Creating" := by
  intro fuel
  induction fuel with
  | zero =>
    intro status fetches msgs sleeps t h
    rw [checkLoop] at h
    by_cases hs : status = "Creating"
    · simp [hs] at h
    · exact Or.inl hs
  | succ f ih =>
    intro status fetches msgs sleeps t h
    rw [checkLoop] at h
    by_cases hs : status = "Creating"
    · simp only [hs, if_true] at h
      rcases ih (fetch fetches) (fetches + 1) (msgs + 1) (sleeps ++ [5]) t h with hne | hex
      · exact Or.inr ⟨fetches, hne⟩
      · exact Or.inr hex
    · exact Or.inl hs

/-- If the fetch j steps ahead of the next one returns a non-"Creating"
status, fuel j + 1 is enough for the loop to terminate. -/
theorem checkLoop_isSome_of_fetch (fetch : Nat → String) :
    ∀ (j : Nat) (status : String) (fetches msgs : Nat) (sleeps : List Nat),
      fetch (fetches + j) ≠ "Creating" →
      (checkLoop fetch status fetches sleeps msgs (j + 1)).isSome = true := by
  intro j
  induction j with
  | zero =>
    intro status fetches msgs sleeps h
    rw [checkLoop]
    by_cases hs : status = "Creating"
    · simp only [hs, if_true]
      rw [checkLoop]
      simp only [Nat.add_zero] at h
      simp [h]
    · simp [hs]
  | succ j ih =>
    intro status fetches msgs sleeps h
    rw [checkLoop]
    by_cases hs : status = "Creating"
    · simp only [hs, if_true]
      have h' : fetch (fetches + 1 + j) ≠ "Creating" := by
        have : fetches + 1 + j = fetches + (j + 1) := by omega
        rw [this]
        exact h
      exact ih (fetch fetches) (fetches + 1) (msgs + 1) (sleeps ++ [5]) h'
    · simp [hs]

/-- C1: the claim fails on the code.  On the status sequence
[Creating, Failed] the poller does stop after exactly 1 sleep, but the
source exits its while loop on any status other than "Creating" and then
unconditionally prints the "successfully created" message: it reports
success with final status "Failed" instead of surfacing a distinct
TerminalFailure error. -/
theorem C1_creating_failed_reports_success :
    check_feature_group_status seqCreatingFailed 10 =
      some { fetches := 2, sleepIntervals := [5], progressMessages := 1,
             finalStatus := "Failed", reportedSuccess := true } := by
  decide

/-- C1 (amended): for every status-fetch sequence in which the status
becomes "Failed" (or any value other than "Creating") after being
"Creating", the poller stops polling but reports success rather than any
distinct error; in particular polling [Creating, Failed] completes after
exactly 1 sleep and reports success with final status "Failed". -/
theorem C1_amended_reports_success :
    (∀ (fetch : Nat → String) (fuel : Nat) (t : PollTrace),
        check_feature_group_status fetch fuel = some t →
        t.reportedSuccess = true ∧ t.finalStatus ≠ "Creating") ∧
    check_feature_group_status seqCreatingFailed 10 =
      some { fetches := 2, sleepIntervals := [5], progressMessages := 1,
             finalStatus := "Failed", reportedSuccess := true } := by
  constructor
  · intro fetch fuel t h
    exact (checkLoop_some_spec fetch fuel (fetch 0) 1 0 [] t h).2
  · decide

/-- Witness for C1 (amended) at the concrete sequence [Creating, Failed]. -/
theorem C1_amended_witness :
    ({ fetches := 2, sleepIntervals := [5], progressMessages := 1,
       finalStatus := "Failed", reportedSuccess := true } : PollTrace).reportedSuccess = true ∧
    ({ fetches := 2, sleepIntervals := [5], progressMessages := 1,
       finalStatus := "Failed", reportedSuccess := true } : PollTrace).finalStatus ≠ "Creating" :=
  C1_amended_reports_success.1 seqCreatingFailed 10
    { fetches := 2, sleepIntervals := [5], progressMessages := 1,
      finalStatus := "Failed", reportedSuccess := true } (by decide)

/-- C2: polling the status sequence [Creating, Creating, Created] performs
exactly 2 sleeps, each of the fixed 5-time-unit interval, makes 3 fetches,
and reports success; moreover this holds for every fuel bound of at least
2 loop iterations. -/
theorem C2_two_sleeps_then_success :
    ∀ fuel : Nat, 2 ≤ fuel →
      check_feature_group_status seqCreatingCreatingCreated fuel =
        some { fetches := 3, sleepIntervals := [5, 5], progressMessages := 2,
               finalStatus := "Created", reportedSuccess := true } := by
  intro fuel hfuel
  obtain ⟨k, rfl⟩ : ∃ k, fuel = (k + 1) + 1 := ⟨fuel - 2, by omega⟩
  rw [check_feature_group_status]
  rw [checkLoop_step _ _ _ _ _ _ (by decide : seqCreatingCreatingCreated 0 = "Creating")]
  norm_num
  rw [checkLoop_step _ _ _ _ _ _ (by decide : seqCreatingCreatingCreated 1 = "Creating")]
  norm_num
  rw [checkLoop_exit _ _ _ _ _ _ (by decide : seqCreatingCreatingCreated 2 ≠ "Creating")]
  decide

/-- Witness for C2 with fuel 10. -/
theorem C2_witness :
    check_feature_group_status seqCreatingCreatingCreated 10 =
      some { fetches := 3, sleepIntervals := [5, 5], progressMessages := 2,
             finalStatus := "Created", reportedSuccess := true } :=
  C2_two_sleeps_then_success 10 (by decide)

/-- C5: the poller has no bound on the number of fetch attempts.  It
terminates under some fuel bound exactly when the status sequence
eventually yields a value different from "Creating", and on a sequence
that is "Creating" forever it never returns, no matter how much fuel it
is given. -/
theorem C5_terminates_iff_eventually_noncreating (fetch : Nat → String) :
    ((∃ fuel, (check_feature_group_status fetch fuel).isSome = true) ↔
      (∃ i, fetch i ≠ "Creating")) ∧
    ((∀ i, fetch i = "Creating") → ∀ fuel, check_feature_group_status fetch fuel = none) := by
  have hiff : (∃ fuel, (check_feature_group_status fetch fuel).isSome = true) ↔
      (∃ i, fetch i ≠ "Creating") := by
    constructor
    · rintro ⟨fuel, hsome⟩
      obtain ⟨t, ht⟩ := Option.isSome_iff_exists.mp hsome
      rcases checkLoop_some_fetch fetch fuel (fetch 0) 1 0 [] t ht with hne | hex
      · exact ⟨0, hne⟩
      · exact hex
    · rintro ⟨i, hi⟩
      match i with
      | 0 =>
        refine ⟨0, ?_⟩
        rw [check_feature_group_status, checkLoop]
        simp [hi]
      | Nat.succ j =>
        refine ⟨j + 1, ?_⟩
        rw [check_feature_group_status]
        apply checkLoop_isSome_of_fetch
        have : 1 + j = j + 1 := by omega
        rw [this]
        exact hi
  refine ⟨hiff, ?_⟩
  intro hall fuel
  cases hcheck : check_feature_group_status fetch fuel with
  | none => rfl
  | some t =>
    obtain ⟨i, hi⟩ := hiff.mp ⟨fuel, by rw [hcheck]; rfl⟩
    exact absurd (hall i) hi

/-- Witness for C5: on the constant "Creating" sequence the poller returns
for no fuel bound, here evaluated at fuel 7. -/
theorem C5_witness :
    check_feature_group_status (fun _ => "Creating") 7 = none :=
  (C5_terminates_iff_eventually_noncreating (fun _ => "Creating")).2 (fun _ => rfl) 7

/-- C9: in every terminating run of the poller the number of status
fetches equals the number of sleeps plus one, and exactly one progress
message is printed per sleep. -/
theorem C9_fetch_sleep_accounting (fetch : Nat → String) (fuel : Nat) (t : PollTrace)
    (h : check_feature_group_status fetch fuel = some t) :
    t.fetches = t.sleepIntervals.length + 1 ∧
    t.progressMessages = t.sleepIntervals.length := by
  obtain ⟨⟨k, hk1, hk2, hk3⟩, -, -⟩ :=
    checkLoop_some_spec fetch fuel (fetch 0) 1 0 [] t h
  rw [hk2]
  simp only [List.nil_append, List.length_replicate]
  omega

/-- Witness for C9 at a sequence whose first fetch is already "Created". -/
theorem C9_witness :
    traceCreatedImmediately.fetches = traceCreatedImmediately.sleepIntervals.length + 1 ∧
    traceCreatedImmediately.progressMessages = traceCreatedImmediately.sleepIntervals.length :=
  C9_fetch_sleep_accounting (fun _ => "Created") 3 traceCreatedImmediately (by decide)

/-!
The EventTime column append, embedded from cells 16 and 18 of the notebook:

  current_time_sec = int(round(time.time()))
  ...
  customer_data["EventTime"] = pd.Series([current_time_sec]*len(customer_data), dtype="float64")
  orders_data["EventTime"] = pd.Series([current_time_sec]*len(orders_data), dtype="float64")

A dataframe is a list of column names together with a list of rows, each a
list of cell values aligned with the column names.
-/

/-- A pandas dataframe: named columns and row-major cell data. -/
structure DataFrame (α : Type) where
  cols : List String
  rows : List (List α)
  deriving Repr, DecidableEq

/-- Pandas column assignment `df[name] = Series([v]*len(df))` with a
constant value: overwrite the column in place if it exists, otherwise
append a new column at the right end of the frame. -/
def setConstColumn {α : Type} (df : DataFrame α) (name : String) (v : α) : DataFrame α :=
  if df.cols.contains name then
    { cols := df.cols, rows := df.rows.map (fun row => row.set (df.cols.indexOf name) v) }
  else
    { cols := df.cols ++ [name], rows := df.rows.map (fun row => row ++ [v]) }

/-- Cell 18 of the notebook for one dataframe: append the captured
timestamp `t` as the constant EventTime column. -/
def addEventTime {α : Type} (df : DataFrame α) (t : α) : DataFrame α :=
  setConstColumn df "EventTime" t

/-- Value of the cell at row `i`, column `name` (none when out of range). -/
def cellValue {α : Type} (df : DataFrame α) (i : Nat) (name : String) : Option α :=
  (df.rows[i]?).bind (fun row => row[(df.cols.indexOf name)]?)

/-- C8: appending the synthesized EventTime column to a dataframe without a
pre-existing EventTime column adds exactly one new column at the right end
and leaves everything else unchanged: the rows after the append are exactly
the original rows, in the original order, each extended with the single new
cell, so every pre-existing column, cell value, the row count and the row
order are preserved. -/
theorem C8_event_time_append_frame {α : Type} (df : DataFrame α) (t : α)
    (h : "EventTime" ∉ df.cols) :
    (addEventTime df t).cols = df.cols ++ ["EventTime"] ∧
    (addEventTime df t).rows = df.rows.map (fun row => row ++ [t]) := by
  rw [addEventTime, setConstColumn, if_neg]
  · exact ⟨rfl, rfl⟩
  · simpa using h

/-- Witness for C8 on a concrete two-row dataframe. -/
theorem C8_witness :
    (addEventTime { cols := ["customer_id", "city_code"], rows := [[1, 10], [2, 20]] }
        (99 : Nat)).cols = ["customer_id", "city_code"] ++ ["EventTime"] ∧
    (addEventTime { cols := ["customer_id", "city_code"], rows := [[1, 10], [2, 20]] }
        (99 : Nat)).rows = [[1, 10], [2, 20]].map (fun row => row ++ [99]) :=
  C8_event_time_append_frame
    { cols := ["customer_id", "city_code"], rows := [[1, 10], [2, 20]] } 99 (by decide)

/-- In a well-formed frame without a prior EventTime column, every row of
the frame produced by `addEventTime` carries the constant `t` in its
EventTime cell. -/
theorem cellValue_addEventTime {α : Type} (df : DataFrame α) (t : α)
    (h : "EventTime" ∉ df.cols)
    (hw : ∀ row ∈ df.rows, row.length = df.cols.length) :
    ∀ i, i < (addEventTime df t).rows.length →
      cellValue (addEventTime df t) i "EventTime" = some t := by
  intro i hi
  obtain ⟨hcols, hrows⟩ := C8_event_time_append_frame df t h
  rw [hrows] at hi
  simp only [List.length_map] at hi
  have hrow : df.rows[i]? = some df.rows[i] := List.getElem?_eq_getElem hi
  have hlen : df.rows[i].length = df.cols.length := hw df.rows[i] (List.getElem_mem hi)
  rw [cellValue, hcols, hrows]
  rw [List.indexOf_append_of_not_mem h]
  simp only [List.getElem?_map, hrow, Option.map_some', Option.some_bind]
  rw [List.getElem?_append_right (by simp [hlen, List.indexOf_cons_self])]
  simp [hlen, List.indexOf_cons_self]

/-- C10: the synthesized event-time value is a single constant captured
once and stamped identically on every row of both dataframes: after cell
18, every row of the customer frame and every row of the orders frame has
the same value `t` (the once-captured current_time_sec) in its EventTime
cell. -/
theorem C10_single_timestamp {α : Type} (customer orders : DataFrame α) (t : α)
    (hc : "EventTime" ∉ customer.cols) (ho : "EventTime" ∉ orders.cols)
    (hcw : ∀ row ∈ customer.rows, row.length = customer.cols.length)
    (how : ∀ row ∈ orders.rows, row.length = orders.cols.length) :
    (∀ i, i < (addEventTime customer t).rows.length →
      cellValue (addEventTime customer t) i "EventTime" = some t) ∧
    (∀ i, i < (addEventTime orders t).rows.length →
      cellValue (addEventTime orders t) i "EventTime" = some t) :=
  ⟨cellValue_addEventTime customer t hc hcw, cellValue_addEventTime orders t ho how⟩

/-- Witness for C10 on concrete customer and orders frames. -/
theorem C10_witness :
    (∀ i, i < (addEventTime { cols := ["customer_id"], rows := [[(1 : Nat)], [2]] }
        (42 : Nat)).rows.length →
      cellValue (addEventTime { cols := ["customer_id"], rows := [[(1 : Nat)], [2]] } 42)
        i "EventTime" = some 42) ∧
    (∀ i, i < (addEventTime { cols := ["order_id"], rows := [[(7 : Nat)]] }
        (42 : Nat)).rows.length →
      cellValue (addEventTime { cols := ["order_id"], rows := [[(7 : Nat)]] } 42)
        i "EventTime" = some 42) :=
  C10_single_timestamp { cols := ["customer_id"], rows := [[1], [2]] }
    { cols := ["order_id"], rows := [[7]] } 42 (by decide) (by decide)
    (by intro row hr; fin_cases hr; all_goals rfl) (by intro row hr; fin_cases hr; all_goals rfl)

/-!
The batch ingestor.  The notebook only calls `FeatureGroup.ingest`
(cells 29 and 30); the implementation of that method is not part of this
repository, so the ingestor below is modelled from the specification
(sections 3, 4.2 and 7): shard the dataset into `w` contiguous shards,
validate each row, submit each valid row through the put-record
capability, and aggregate per-row failures without aborting siblings.
-/

/-- Modelled from the spec: the lifecycle status of a feature group
(Creating, Created, Deleting, Deleted, or Failed). -/
inductive GroupStatus where
  | Creating
  | Created
  | Deleting
  | Deleted
  | Failed
  deriving Repr, DecidableEq

/-- Modelled from the spec: a FeatureGroupDescriptor with its name, its
record-identifier and event-time field names, and the last observed
lifecycle status. -/
structure FeatureGroupDescriptor where
  name : String
  recordIdentifierName : String
  eventTimeName : String
  status : GroupStatus
  deriving Repr, DecidableEq

/-- Modelled from the spec: a Record is an ordered list of
(feature name, value) pairs; a value may be missing. -/
structure Record where
  pairs : List (String × Option String)
  deriving Repr, DecidableEq

/-- Modelled from the spec: the value a record carries for the named
feature, none when the feature is absent or its value is missing. -/
def featureValue (r : Record) (name : String) : Option String :=
  match r.pairs.find? (fun p => p.1 == name) with
  | some p => p.2
  | none => none

/-- Modelled from the spec: a record is well formed for a group when it
carries a value for the record-identifier feature and for the event-time
feature; malformed records are rejected before submission. -/
def validRecord (g : FeatureGroupDescriptor) (r : Record) : Bool :=
  (featureValue r g.recordIdentifierName).isSome &&
    (featureValue r g.eventTimeName).isSome

/-- Modelled from the spec: the error recorded for a single failed row,
either a validation rejection or a put-record error. -/
inductive RowError where
  | validationError
  | putError (msg : String)
  deriving Repr, DecidableEq

/-- Modelled from the spec: how the overall ingest operation fails, either
because the target group is not in Created status, or because a non-zero
number of rows failed. -/
inductive IngestFailure where
  | groupNotReady (status : GroupStatus)
  | partialFailure (failures : List (Nat × RowError))
  deriving Repr, DecidableEq

/-- Modelled from the spec: partition the rows into `w` contiguous shards
(an empty list of shards when `w` is zero, which the contract excludes). -/
def splitShards {α : Type} : List α → Nat → List (List α)
  | _, 0 => []
  | rows, 1 => [rows]
  | rows, Nat.succ (Nat.succ w) =>
    rows.take (rows.length / (w + 2)) ::
      splitShards (rows.drop (rows.length / (w + 2))) (w + 1)

/-- Modelled from the spec: process one shard sequentially.  `off` is the
index in the whole dataset of the first row of the shard.  Each row is
validated; a valid row is submitted through the put-record capability
`put` (none means success, some msg a per-row error).  The first result
component lists the dataset indices for which put-record was invoked, the
second the collected (row index, error) failure pairs.  A failure never
aborts the processing of the remaining rows. -/
def processShard (put : Record → Option String) (g : FeatureGroupDescriptor) :
    Nat → List Record → List Nat × List (Nat × RowError)
  | _, [] => ([], [])
  | off, r :: rest =>
    let res := processShard put g (off + 1) rest
    if validRecord g r then
      match put r with
      | none => (off :: res.1, res.2)
      | some msg => (off :: res.1, (off, RowError.putError msg) :: res.2)
    else
      (res.1, (off, RowError.validationError) :: res.2)

/-- Modelled from the spec: process the shards one after the other,
keeping global dataset indices, and concatenate the put-record call
traces and the failure lists. -/
def processShards (put : Record → Option String) (g : FeatureGroupDescriptor) :
    Nat → List (List Record) → List Nat × List (Nat × RowError)
  | _, [] => ([], [])
  | off, s :: rest =>
    let r1 := processShard put g off s
    let r2 := processShards put g (off + s.length) rest
    (r1.1 ++ r2.1, r1.2 ++ r2.2)

/-- Modelled from the spec: the aggregated (row index, error) failure
pairs of a full ingest run. -/
def ingestFailures (put : Record → Option String) (g : FeatureGroupDescriptor)
    (rows : List Record) (w : Nat) : List (Nat × RowError) :=
  (processShards put g 0 (splitShards rows w)).2

/-- Modelled from the spec: the batch ingest operation.  It refuses to
contact the put-record capability unless the group status is Created;
otherwise it shards the dataset, processes every shard, and fails exactly
when the collected failure list is non-empty.  The first component is the
trace of dataset indices submitted to put-record, the second the overall
outcome. -/
def ingest (put : Record → Option String) (g : FeatureGroupDescriptor)
    (rows : List Record) (w : Nat) : List Nat × Except IngestFailure Unit :=
  if g.status = GroupStatus.Created then
    ((processShards put g 0 (splitShards rows w)).1,
      if (ingestFailures put g rows w).isEmpty then Except.ok ()
      else Except.error (IngestFailure.partialFailure (ingestFailures put g rows w)))
  else
    ([], Except.error (IngestFailure.groupNotReady g.status))

/-- Concatenating the shards produced by `splitShards` recovers the whole
dataset, in order, whenever at least one shard is requested. -/
theorem splitShards_flatten {α : Type} :
    ∀ (w : Nat) (rows : List α), 1 ≤ w → (splitShards rows w).flatten = rows := by
  intro w
  induction w with
  | zero => intro rows h; omega
  | succ n ih =>
    intro rows h
    match n with
    | 0 => simp [splitShards]
    | Nat.succ m =>
      rw [splitShards]
      simp only [List.flatten_cons]
      rw [ih _ (by omega)]
      exact List.take_append_drop _ rows

/-- `splitShards` produces exactly the requested number of shards. -/
theorem splitShards_length {α : Type} :
    ∀ (w : Nat) (rows : List α), 1 ≤ w → (splitShards rows w).length = w := by
  intro w
  induction w with
  | zero => intro rows h; omega
  | succ n ih =>
    intro rows h
    match n with
    | 0 => simp [splitShards]
    | Nat.succ m =>
      rw [splitShards]
      simp only [List.length_cons]
      rw [ih _ (by omega)]

/-- Processing a concatenation of rows equals processing the two parts
with the offset advanced, concatenating call traces and failures. -/
theorem processShard_append (put : Record → Option String) (g : FeatureGroupDescriptor) :
    ∀ (a b : List Record) (off : Nat),
      processShard put g off (a ++ b) =
        ((processShard put g off a).1 ++ (processShard put g (off + a.length) b).1,
         (processShard put g off a).2 ++ (processShard put g (off + a.length) b).2) := by
  intro a
  induction a with
  | nil =>
    intro b off
    simp [processShard]
  | cons r rest ih =>
    intro b off
    have hoff : off + (r :: rest).length = (off + 1) + rest.length := by
      simp only [List.length_cons]
      omega
    simp only [List.cons_append, processShard, hoff]
    cases hv : validRecord g r
    · simp [hv, ih b (off + 1)]
    · cases hp : put r
      · simp [hv, hp, ih b (off + 1)]
      · simp [hv, hp, ih b (off + 1)]

/-- Processing the shards in order with global offsets is the same as
processing the flattened dataset row by row. -/
theorem processShards_eq (put : Record → Option String) (g : FeatureGroupDescriptor) :
    ∀ (shards : List (List Record)) (off : Nat),
      processShards put g off shards = processShard put g off shards.flatten := by
  intro shards
  induction shards with
  | nil =>
    intro off
    simp [processShards, processShard]
  | cons s rest ih =>
    intro off
    simp only [processShards, List.flatten_cons]
    rw [processShard_append put g s rest.flatten off, ih (off + s.length)]

/-- The put-record call trace of a shard contains exactly the indices of
its valid rows, shifted by the shard offset. -/
theorem processShard_mem_calls (put : Record → Option String) (g : FeatureGroupDescriptor) :
    ∀ (s : List Record) (off i : Nat),
      i ∈ (processShard put g off s).1 ↔
        ∃ j, ∃ h : j < s.length, i = off + j ∧ validRecord g s[j] = true := by
  intro s
  induction s with
  | nil =>
    intro off i
    simp [processShard]
  | cons r rest ih =>
    intro off i
    have hcalls : (processShard put g off (r :: rest)).1 =
        if validRecord g r then off :: (processShard put g (off + 1) rest).1
        else (processShard put g (off + 1) rest).1 := by
      simp only [processShard]
      cases hv : validRecord g r
      · simp [hv]
      · cases hp : put r
        · simp [hv, hp]
        · simp [hv, hp]
    rw [hcalls]
    simp only [List.length_cons]
    cases hv : validRecord g r with
    | true =>
      simp only [if_true, List.mem_cons, ih (off + 1) i]
      constructor
      · rintro (rfl | ⟨j, hj, rfl, hvj⟩)
        · exact ⟨0, by omega, by omega, by simpa using hv⟩
        · refine ⟨j + 1, by omega, by omega, ?_⟩
          simpa using hvj
      · rintro ⟨j, hj, rfl, hvj⟩
        match j with
        | 0 => exact Or.inl (by omega)
        | Nat.succ j' =>
          refine Or.inr ⟨j', by omega, by omega, ?_⟩
          simpa using hvj
    | false =>
      simp only [Bool.false_eq_true, if_false, ih (off + 1) i]
      constructor
      · rintro ⟨j, hj, rfl, hvj⟩
        refine ⟨j + 1, by omega, by omega, ?_⟩
        simpa using hvj
      · rintro ⟨j, hj, rfl, hvj⟩
        match j with
        | 0 =>
          rw [List.getElem_cons_zero] at hvj
          rw [hv] at hvj
          exact absurd hvj (by decide)
        | Nat.succ j' =>
          refine ⟨j', by omega, by omega, ?_⟩
          simpa using hvj

/-- The failure list of a shard contains exactly one pair per failed row:
a validation rejection for each malformed row (no put-record call is made
for it) and a put error for each valid row whose submission failed. -/
theorem processShard_mem_failures (put : Record → Option String) (g : FeatureGroupDescriptor) :
    ∀ (s : List Record) (off i : Nat) (e : RowError),
      (i, e) ∈ (processShard put g off s).2 ↔
        ∃ j, ∃ h : j < s.length, i = off + j ∧
          ((validRecord g s[j] = false ∧ e = RowError.validationError) ∨
           (validRecord g s[j] = true ∧
             ∃ msg, put s[j] = some msg ∧ e = RowError.putError msg)) := by
  intro s
  induction s with
  | nil =>
    intro off i e
    simp [processShard]
  | cons r rest ih =>
    intro off i e
    have hfails : (processShard put g off (r :: rest)).2 =
        if validRecord g r then
          (match put r with
           | none => (processShard put g (off + 1) rest).2
           | some msg => (off, RowError.putError msg) :: (processShard put g (off + 1) rest).2)
        else (off, RowError.validationError) :: (processShard put g (off + 1) rest).2 := by
      simp only [processShard]
      cases hv : validRecord g r
      · simp [hv]
      · cases hp : put r
        · simp [hv, hp]
        · simp [hv, hp]
    rw [hfails]
    simp only [List.length_cons]
    cases hv : validRecord g r with
    | true =>
      cases hp : put r with
      | none =>
        simp only [if_true, ih (off + 1) i e]
        constructor
        · rintro ⟨j, hj, rfl, hcase⟩
          refine ⟨j + 1, by omega, by omega, ?_⟩
          simpa using hcase
        · rintro ⟨j, hj, rfl, hcase⟩
          match j with
          | 0 =>
            simp only [List.getElem_cons_zero] at hcase
            rcases hcase with ⟨hvf, -⟩ | ⟨-, msg, hmsg, -⟩
            · rw [hv] at hvf; exact absurd hvf (by decide)
            · rw [hp] at hmsg; exact absurd hmsg (by simp)
          | Nat.succ j' =>
            refine ⟨j', by omega, by omega, ?_⟩
            simpa using hcase
      | some m =>
        simp only [if_true, List.mem_cons, ih (off + 1) i e]
        constructor
        · rintro (hpair | ⟨j, hj, rfl, hcase⟩)
          · refine ⟨0, by omega, by simpa using congrArg Prod.fst hpair, Or.inr ?_⟩
            have he : e = RowError.putError m := congrArg Prod.snd hpair
            simp only [List.getElem_cons_zero]
            exact ⟨hv, m, hp, he⟩
          · refine ⟨j + 1, by omega, by omega, ?_⟩
            simpa using hcase
        · rintro ⟨j, hj, rfl, hcase⟩
          match j with
          | 0 =>
            simp only [List.getElem_cons_zero] at hcase
            rcases hcase with ⟨hvf, -⟩ | ⟨-, msg, hmsg, he⟩
            · rw [hv] at hvf; exact absurd hvf (by decide)
            · refine Or.inl ?_
              rw [hp] at hmsg
              injection hmsg with hmm
              rw [he, ← hmm]
              simp
          | Nat.succ j' =>
            refine Or.inr ⟨j', by omega, by omega, ?_⟩
            simpa using hcase
    | false =>
      simp only [Bool.false_eq_true, if_false, List.mem_cons, ih (off + 1) i e]
      constructor
      · rintro (hpair | ⟨j, hj, rfl, hcase⟩)
        · refine ⟨0, by omega, by simpa using congrArg Prod.fst hpair, Or.inl ?_⟩
          have he : e = RowError.validationError := congrArg Prod.snd hpair
          simp only [List.getElem_cons_zero]
          exact ⟨hv, he⟩
        · refine ⟨j + 1, by omega, by omega, ?_⟩
          simpa using hcase
      · rintro ⟨j, hj, rfl, hcase⟩
        match j with
        | 0 =>
          simp only [List.getElem_cons_zero] at hcase
          rcases hcase with ⟨-, he⟩ | ⟨hvt, -⟩
          · refine Or.inl ?_
            rw [he]
            simp
          · rw [hv] at hvt; exact absurd hvt (by decide)
        | Nat.succ j' =>
          refine Or.inr ⟨j', by omega, by omega, ?_⟩
          simpa using hcase

/-- With a Created group and at least one shard, the ingest call trace is
that of processing the whole dataset row by row. -/
theorem ingest_calls_created (put : Record → Option String) (g : FeatureGroupDescriptor)
    (rows : List Record) (w : Nat) (hg : g.status = GroupStatus.Created) (hw : 1 ≤ w) :
    (ingest put g rows w).1 = (processShard put g 0 rows).1 := by
  rw [ingest, if_pos hg]
  dsimp only
  rw [processShards_eq put g (splitShards rows w) 0, splitShards_flatten w rows hw]

/-- With at least one shard, the aggregated failures are those of
processing the whole dataset row by row. -/
theorem ingestFailures_created (put : Record → Option String) (g : FeatureGroupDescriptor)
    (rows : List Record) (w : Nat) (hw : 1 ≤ w) :
    ingestFailures put g rows w = (processShard put g 0 rows).2 := by
  rw [ingestFailures, processShards_eq put g (splitShards rows w) 0,
    splitShards_flatten w rows hw]

/-- With a Created group, the ingest operation succeeds exactly when the
aggregated failure list is empty. -/
theorem ingest_ok_iff (put : Record → Option String) (g : FeatureGroupDescriptor)
    (rows : List Record) (w : Nat) (hg : g.status = GroupStatus.Created) :
    (ingest put g rows w).2 = Except.ok () ↔ ingestFailures put g rows w = [] := by
  rw [ingest, if_pos hg]
  dsimp only
  by_cases hemp : (ingestFailures put g rows w).isEmpty = true
  · rw [if_pos hemp]
    simp [List.isEmpty_iff.mp hemp]
  · rw [if_neg hemp]
    constructor
    · intro h
      exact absurd h (by simp)
    · intro h
      rw [h] at hemp
      exact absurd rfl hemp

/-- With a Created group, any partial-failure payload reported by ingest
is exactly the aggregated failure list, and it is non-empty. -/
theorem ingest_error_eq (put : Record → Option String) (g : FeatureGroupDescriptor)
    (rows : List Record) (w : Nat) (hg : g.status = GroupStatus.Created) :
    ∀ fs, (ingest put g rows w).2 = Except.error (IngestFailure.partialFailure fs) →
      fs = ingestFailures put g rows w ∧ fs ≠ [] := by
  rw [ingest, if_pos hg]
  dsimp only
  by_cases hemp : (ingestFailures put g rows w).isEmpty = true
  · rw [if_pos hemp]
    intro fs h
    exact absurd h (by simp)
  · rw [if_neg hemp]
    intro fs h
    have hfs : IngestFailure.partialFailure (ingestFailures put g rows w) =
        IngestFailure.partialFailure fs := by
      injection h
    have hfs2 : ingestFailures put g rows w = fs := by injection hfs
    refine ⟨hfs2.symm, ?_⟩
    intro hnil
    rw [hfs2, hnil] at hemp
    exact hemp rfl

/-- A feature group in Created status, as observed after the readiness
poll succeeds. -/
def sampleGroup : FeatureGroupDescriptor :=
  { name := "customers-feature-group", recordIdentifierName := "customer_id",
    eventTimeName := "EventTime", status := GroupStatus.Created }

/-- The same feature group after deletion. -/
def deletedGroup : FeatureGroupDescriptor :=
  { name := "customers-feature-group", recordIdentifierName := "customer_id",
    eventTimeName := "EventTime", status := GroupStatus.Deleted }

/-- The i-th row of the concrete 10-row batch. -/
def sampleRecord (i : Nat) : Record :=
  { pairs := [("customer_id", some (toString i)), ("EventTime", some "1600000000")] }

/-- A concrete batch of 10 well-formed rows. -/
def sampleRows : List Record := (List.range 10).map sampleRecord

/-- A put-record capability with exactly one induced failure: it fails on
the row whose identifier value is "3" and succeeds on every other row. -/
def samplePut : Record → Option String :=
  fun r => if featureValue r "customer_id" = some "3" then some "boom" else none

/-- A record whose record-identifier value is missing. -/
def badRecord : Record := { pairs := [("EventTime", some "1600000000")] }

/-- C3: for every dataset and every worker count w ≥ 1, the ingestor
partitions the rows into exactly w contiguous shards whose concatenation,
in order, is the original dataset (each row falls in exactly one shard,
exactly once), and processing the shards with their global offsets is the
same as processing the dataset row by row. -/
theorem C3_shards_partition (rows : List Record) (w : Nat) (hw : 1 ≤ w) :
    (splitShards rows w).flatten = rows ∧
    (splitShards rows w).length = w ∧
    ∀ (put : Record → Option String) (g : FeatureGroupDescriptor),
      processShards put g 0 (splitShards rows w) = processShard put g 0 rows := by
  refine ⟨splitShards_flatten w rows hw, splitShards_length w rows hw, ?_⟩
  intro put g
  rw [processShards_eq put g (splitShards rows w) 0, splitShards_flatten w rows hw]

/-- Witness for C3 at the concrete 10-row batch with 3 workers. -/
theorem C3_witness :
    (splitShards sampleRows 3).flatten = sampleRows ∧
    (splitShards sampleRows 3).length = 3 ∧
    ∀ (put : Record → Option String) (g : FeatureGroupDescriptor),
      processShards put g 0 (splitShards sampleRows 3) = processShard put g 0 sampleRows :=
  C3_shards_partition sampleRows 3 (by decide)

/-- C4: the failure policy.  (1) No abort: for every put-record behavior,
Created group, dataset and worker count w ≥ 1, every valid row is
submitted to put-record, whatever failures other rows produce.  (2) The
operation succeeds exactly when the collected failure list is empty, and
any reported failure payload is that complete, non-empty (row index,
error) list.  (3) On a concrete batch of 10 rows with 1 induced put
failure, ingest submits all 10 rows (in particular the other 9) and
reports a failure list of length 1 naming exactly the failing row
index 3. -/
theorem C4_failure_policy :
    (∀ (put : Record → Option String) (g : FeatureGroupDescriptor) (rows : List Record)
        (w j : Nat), g.status = GroupStatus.Created → 1 ≤ w →
        ∀ hj : j < rows.length, validRecord g rows[j] = true →
        j ∈ (ingest put g rows w).1) ∧
    (∀ (put : Record → Option String) (g : FeatureGroupDescriptor) (rows : List Record)
        (w : Nat), g.status = GroupStatus.Created →
        (((ingest put g rows w).2 = Except.ok ()) ↔ ingestFailures put g rows w = []) ∧
        (∀ fs, (ingest put g rows w).2 = Except.error (IngestFailure.partialFailure fs) →
          fs = ingestFailures put g rows w ∧ fs ≠ [])) ∧
    ingest samplePut sampleGroup sampleRows 3 =
      (List.range 10,
        Except.error (IngestFailure.partialFailure [(3, RowError.putError "boom")])) := by
  refine ⟨?_, ?_, rfl⟩
  · intro put g rows w j hg hw hj hval
    rw [ingest_calls_created put g rows w hg hw]
    exact (processShard_mem_calls put g rows 0 j).mpr ⟨j, hj, by omega, hval⟩
  · intro put g rows w hg
    exact ⟨ingest_ok_iff put g rows w hg, ingest_error_eq put g rows w hg⟩

/-- Witness for C4: row 7 of the concrete batch is submitted even though
row 3 fails. -/
theorem C4_witness : (7 : Nat) ∈ (ingest samplePut sampleGroup sampleRows 3).1 :=
  C4_failure_policy.1 samplePut sampleGroup sampleRows 3 7 rfl (by decide) (by decide)
    (by decide)

/-- C6: a record whose record-identifier value is missing always fails
validation: the put-record capability is never invoked for that row, a
(row index, validationError) pair is recorded for it, and the overall
ingest operation does not succeed. -/
theorem C6_missing_identifier (put : Record → Option String) (g : FeatureGroupDescriptor)
    (rows : List Record) (w j : Nat) (hj : j < rows.length)
    (hmiss : featureValue rows[j] g.recordIdentifierName = none)
    (hg : g.status = GroupStatus.Created) (hw : 1 ≤ w) :
    j ∉ (ingest put g rows w).1 ∧
    (j, RowError.validationError) ∈ ingestFailures put g rows w ∧
    (ingest put g rows w).2 ≠ Except.ok () := by
  have hvf : validRecord g rows[j] = false := by
    rw [validRecord, hmiss]
    rfl
  have hmem : (j, RowError.validationError) ∈ ingestFailures put g rows w := by
    rw [ingestFailures_created put g rows w hw]
    exact (processShard_mem_failures put g rows 0 j RowError.validationError).mpr
      ⟨j, hj, by omega, Or.inl ⟨hvf, rfl⟩⟩
  refine ⟨?_, hmem, ?_⟩
  · rw [ingest_calls_created put g rows w hg hw]
    intro hin
    obtain ⟨j', hj', heq, hval⟩ := (processShard_mem_calls put g rows 0 j).mp hin
    have hjj : j' = j := by omega
    subst hjj
    exact absurd (hval.symm.trans hvf) (by decide)
  · intro hok
    rw [(ingest_ok_iff put g rows w hg).mp hok] at hmem
    exact absurd hmem (List.not_mem_nil _)

/-- Witness for C6 at a concrete one-row batch whose record lacks the
identifier value. -/
theorem C6_witness :
    (0 : Nat) ∉ (ingest samplePut sampleGroup [badRecord] 1).1 ∧
    (0, RowError.validationError) ∈ ingestFailures samplePut sampleGroup [badRecord] 1 ∧
    (ingest samplePut sampleGroup [badRecord] 1).2 ≠ Except.ok () :=
  C6_missing_identifier samplePut sampleGroup [badRecord] 1 0 (by decide) (by decide)
    rfl (by decide)

/-- C7: every row submitted to put-record is submitted against a group in
Created status, and submitting against a group in any non-Created status
fails with a groupNotReady error while the put-record capability is never
invoked (the call trace is empty). -/
theorem C7_requires_created (put : Record → Option String) (g : FeatureGroupDescriptor)
    (rows : List Record) (w : Nat) :
    ((ingest put g rows w).1 ≠ [] → g.status = GroupStatus.Created) ∧
    (g.status ≠ GroupStatus.Created →
      (ingest put g rows w).1 = [] ∧
      (ingest put g rows w).2 = Except.error (IngestFailure.groupNotReady g.status)) := by
  by_cases hg : g.status = GroupStatus.Created
  · exact ⟨fun _ => hg, fun hne => absurd hg hne⟩
  · rw [ingest, if_neg hg]
    exact ⟨fun hne => absurd rfl hne, fun _ => ⟨rfl, rfl⟩⟩

/-- Witness for C7: submitting the concrete batch to the Deleted group is
rejected with no put-record call. -/
theorem C7_witness :
    (ingest samplePut deletedGroup sampleRows 3).1 = [] ∧
    (ingest samplePut deletedGroup sampleRows 3).2 =
      Except.error (IngestFailure.groupNotReady GroupStatus.Deleted) :=
  (C7_requires_created samplePut deletedGroup sampleRows 3).2 (by decide)

end FeatureStoreIntro
